import Mathlib

/-!
Verification of the deserialization engine of the `rw_tileman` tile-init loader
(`src/lingo_de.rs`).  The Rust code is shallowly embedded: strings are processed
as `List Char`, the regular expressions of the source are embedded as
hand-rolled matchers faithful to the regex semantics (leftmost scan, lazy /
greedy quantifiers as used by each pattern), machine integers become `Int` /
`Nat` with explicit range checks mirroring Rust `str::parse`, and fallible Rust
functions returning `Result` become `Except`.

Types that the engine uses but whose declarations are not part of the studied
sources (`TileInfo`, `TileCategory`, `TileCell`, `TileType`, `TileInit`,
`TileCategory::new_main`, `TileInit::sort_and_normalize_categories`,
`utl::indices`) are modelled from the specification; each such definition says
so in its doc comment.
-/

set_option linter.unusedVariables false

namespace Tileman

/-! ## Character-level helpers -/

/-- Whitespace test modelling Rust `char::is_whitespace` and the regex class
`\s` on the ASCII whitespace the format uses. -/
def isWs (c : Char) : Bool := c = ' ' || c = '\t' || c = '\n' || c = '\r'

/-- Decimal digit, regex class `\d`. -/
def isDigitC (c : Char) : Bool := '0' ≤ c && c ≤ '9'

/-- Regex class `\w` (ASCII word character). -/
def isWordC (c : Char) : Bool :=
  isDigitC c || ('a' ≤ c && c ≤ 'z') || ('A' ≤ c && c ≤ 'Z') || c = '_'

/-- Rust `str::trim` on the character list of a string. -/
def trimChars (l : List Char) : List Char :=
  ((l.dropWhile isWs).reverse.dropWhile isWs).reverse

/-- Rust `str::starts_with`. -/
def rsStartsWith (s p : String) : Bool := p.data.isPrefixOf s.data

/-- Digit run to its numeric value; `none` unless the input is a nonempty
all-digit string.  Helper for the Rust `str::parse` models below. -/
def digitsToNat (l : List Char) : Option Nat :=
  if l.isEmpty then none
  else if l.all isDigitC then
    some (l.foldl (fun a c => a * 10 + (c.toNat - '0'.toNat)) 0)
  else none

/-- Rust `str::parse::<i32>`: optional sign, at least one digit, nothing else,
value within the `i32` range. -/
def parseI32 (l : List Char) : Option Int :=
  match l with
  | '+' :: r => (digitsToNat r).bind fun n =>
      if n ≤ 2147483647 then some (n : Int) else none
  | '-' :: r => (digitsToNat r).bind fun n =>
      if n ≤ 2147483648 then some (-(n : Int)) else none
  | _ => (digitsToNat l).bind fun n =>
      if n ≤ 2147483647 then some (n : Int) else none

/-- Rust `str::parse::<u8>`: optional `+`, digits, value `≤ 255`. -/
def parseU8 (l : List Char) : Option Nat :=
  match l with
  | '+' :: r => (digitsToNat r).bind fun n => if n ≤ 255 then some n else none
  | _ => (digitsToNat l).bind fun n => if n ≤ 255 then some n else none

/-- Rust `str::parse::<usize>` on a digit string (64-bit target). -/
def parseUsize (l : List Char) : Option Nat :=
  (digitsToNat l).bind fun n => if n ≤ 18446744073709551615 then some n else none

/-! ## Data model

The record types live outside the studied sources; their shape is taken from
the specification (§3) and from the construction sites in `lingo_de.rs`. -/

/-- Modelled from the spec: "TileCell: external, built from a raw integer
code" (§3); the declaration is not under src/. -/
structure TileCell where
  code : Int
  deriving DecidableEq

/-- Modelled from the spec: `tile_type` is an "external enum from text" (§3);
the declaration is not under src/.  Constructor names follow the tile-type
strings of the dialect. -/
inductive TileType
  | voxelStruct
  | voxelStructRockType
  | voxelStructRandomDisplaceVertical
  | voxelStructRandomDisplaceHorizontal
  | box
  deriving DecidableEq

/-- Modelled from the spec (§3) and the construction site in
`parse_tile_info`; the struct declaration is not under src/. -/
structure TileInfo where
  name : String
  size : List Int
  specs : List TileCell
  specs2 : Option (List TileCell)
  tile_type : TileType
  repeat_layers : Option (List Int)
  buffer_tiles : Int
  random_vars : Option Int
  preview_pos : Int
  tags : List String
  active : Bool
  deriving DecidableEq

/-- The error taxonomy of `lingo_de.rs` (enum `DeserError`). -/
inductive DeserError
  | regexMatchFailed (s : String)
  | contentsNotParsed (s : String)
  | dataConvertFailed (s : String)
  | typeMismatch (key expected got : String)
  | invalidValue (s : String)
  | noCategory (t : TileInfo)
  | ioError
  | missingFile
  | missingValue
  | todo
  deriving DecidableEq

/-- Modelled from the spec (§3); the struct declaration is not under src/.
Equality is structural: "Structural (whole-record) equality as merge/identity
key for TileInfo/TileCategory" (§9). -/
structure TileCategory where
  name : String
  color : Nat × Nat × Nat
  index : Nat
  tiles : List TileInfo
  subfolder : Option String
  enabled : Bool
  deriving DecidableEq

/-- Modelled from the spec: `TileCategory::new_main` (not under src/) builds a
root-document category from name, color and ordinal: no tiles yet, no
subfolder, enabled. -/
def TileCategory.new_main (name : String) (color : Nat × Nat × Nat)
    (index : Nat) : TileCategory :=
  { name := name, color := color, index := index, tiles := [],
    subfolder := none, enabled := true }

/-- Modelled from the spec (§3); the struct declaration is not under src/.
The root `PathBuf` is kept as plain text. -/
structure TileInit where
  root : String
  categories : List TileCategory
  errored_lines : List (String × DeserError)
  deriving DecidableEq

/-- The error type of `app.rs` (`AppError`); the `std::io::Error` payload of
`IOError` carries no information our theorems use and is dropped. -/
inductive AppError
  | ioError
  | todo
  deriving DecidableEq

/-! ## The dynamically-typed value tree (`LingoData`) -/

/-- `enum LingoData` of `lingo_de.rs` (`Box` indirections elided). -/
inductive LingoData
  | number (n : Int)
  | str (s : String)
  | array (xs : List LingoData)
  | point (ns : List Int)
  | invalidOrNull (s : String)

/-- Rust `{:?}` (derived `Debug`) rendering of a string payload.  Escape
sequences are not reproduced; no input in this development needs them. -/
def quoteDbg (s : String) : String := "\"" ++ s ++ "\""

/-- Rust `[1, 2]`-style `Debug` rendering of an integer list. -/
def reprIntList (ns : List Int) : String :=
  "[" ++ String.intercalate ", " (ns.map toString) ++ "]"

mutual

/-- Rust derived `Debug` formatting of `LingoData`, as produced by the
`format!("{:?}", ...)` calls inside the narrowing accessors. -/
def reprLingo : LingoData → String
  | .number n => "Number(" ++ toString n ++ ")"
  | .str s => "String(" ++ quoteDbg s ++ ")"
  | .array xs => "Array([" ++ reprLingoList xs ++ "])"
  | .point ns => "Point(" ++ reprIntList ns ++ ")"
  | .invalidOrNull s => "InvalidOrNull(" ++ quoteDbg s ++ ")"

/-- Comma-separated `Debug` rendering of the elements of an array. -/
def reprLingoList : List LingoData → String
  | [] => ""
  | [x] => reprLingo x
  | x :: xs => reprLingo x ++ ", " ++ reprLingoList xs

end

/-! ## Splitting on `\s*,\s*` (`REGEXSTR_SPLITCOMMAS`)

`Regex::split` with `\s*,\s*` cuts the text at every comma and swallows the
whitespace run immediately before and after each comma; whitespace not
adjacent to a comma (in particular at the two ends of the text) stays.  The
accumulator holds the current piece reversed; `sk` is true while we are
swallowing the whitespace that directly follows a comma. -/

def splitCommasAux : List Char → Bool → List Char → List (List Char)
  | [], _, acc => [acc.reverse]
  | c :: rest, sk, acc =>
    if c = ',' then ((acc.dropWhile isWs).reverse) :: splitCommasAux rest true []
    else if sk && isWs c then splitCommasAux rest true acc
    else splitCommasAux rest false (c :: acc)

/-- Split a value interior on `\s*,\s*`, as `REGEX_SPLITCOMMAS.split` does. -/
def splitCommasChars (l : List Char) : List (List Char) :=
  splitCommasAux l false []

/-! ## `LingoData::parse`

The Rust function recurses into the pieces of a bracketed list, so the
embedding threads a fuel argument and starts it at the input length; every
recursive call goes to a piece of the interior of the input (at least two
characters shorter), so the fuel never runs out (the fuel-zero branch repeats
the "no grammar rule matched" default). -/

def LingoData.parseFuel : Nat → List Char → Except DeserError LingoData
  | 0, l => .ok (.invalidOrNull (String.mk (trimChars l)))
  | fuel + 1, l =>
    let text := trimChars l
    if text.head? = some '[' ∧ text.getLast? = some ']' then
      .ok (.array (((splitCommasChars ((text.drop 1).dropLast)).map
        (fun sub => LingoData.parseFuel fuel sub)).filterMap
          (fun r => match r with | .ok ld => some ld | .error _ => none)))
    else if ("point(".data.isPrefixOf text) ∧ text.getLast? = some ')' then
      .ok (.point ((splitCommasChars ((text.drop 6).dropLast)).filterMap
        (fun sub => parseI32 (trimChars sub))))
    else if text.head? = some '"' ∧ text.getLast? = some '"' then
      .ok (.str (String.mk ((text.drop 1).dropLast)))
    else
      match parseI32 text with
      | some val => .ok (.number val)
      | none => .ok (.invalidOrNull (String.mk text))

/-- `LingoData::parse` on a character list. -/
def LingoData.parseChars (l : List Char) : Except DeserError LingoData :=
  LingoData.parseFuel l.length l

/-- `LingoData::parse` of `lingo_de.rs`. -/
def LingoData.parse (text : String) : Except DeserError LingoData :=
  LingoData.parseChars text.data

/-! ## Narrowing accessors of `LingoData` -/

/-- `LingoData::as_number`. -/
def LingoData.as_number : LingoData → Except DeserError Int
  | .number n => .ok n
  | v => .error (.dataConvertFailed (reprLingo v ++ " not a number"))

/-- `LingoData::as_string`. -/
def LingoData.as_string : LingoData → Except DeserError String
  | .str s => .ok s
  | v => .error (.dataConvertFailed (reprLingo v ++ " not a string"))

/-- `LingoData::as_string_array`. -/
def LingoData.as_string_array : LingoData → Except DeserError (List String)
  | .array xs => .ok (xs.filterMap (fun item =>
      match item.as_string with | .ok s => some s | .error _ => none))
  | v => .error (.dataConvertFailed ("could not build StringArray from " ++ reprLingo v))

/-- `LingoData::as_number_array`. -/
def LingoData.as_number_array : LingoData → Except DeserError (List Int)
  | .array xs => .ok (xs.filterMap (fun item =>
      match item with | .number n => some n | _ => none))
  | v => .error (.dataConvertFailed ("could not build NumberArray from " ++ reprLingo v))

/-- Modelled from the spec: `TileCell::from_number` builds a cell from a raw
integer code (§3: "this layer only guarantees a list of integers reaches
it"); its declaration is not under src/. -/
def TileCell.from_number (n : Int) : Except DeserError TileCell := .ok ⟨n⟩

/-- `LingoData::as_tilecell_array`: narrows through `as_number_array`, then
maps `TileCell::from_number` keeping only the successes; a failed narrowing is
replaced by the tilecell-specific `DataConvertFailed`. -/
def LingoData.as_tilecell_array (v : LingoData) : Except DeserError (List TileCell) :=
  match v.as_number_array with
  | .ok arr => .ok ((arr.map TileCell.from_number).filterMap
      (fun r => match r with | .ok c => some c | .error _ => none))
  | .error _ =>
      .error (.dataConvertFailed ("could not build tilecellArray from " ++ reprLingo v))

/-- `LingoData::as_null_if_zero`. -/
def LingoData.as_null_if_zero : LingoData → LingoData
  | .number 0 => .invalidOrNull "NULL"
  | v => v

/-- Modelled from the spec: `TileType::from_string` parses the external enum
from its textual name (§3); its declaration is not under src/.  Unknown names
fail; `InvalidValue` is the only fitting variant of the error taxonomy. -/
def TileType.from_string (s : String) : Except DeserError TileType :=
  if s = "voxelStruct" then .ok .voxelStruct
  else if s = "voxelStructRockType" then .ok .voxelStructRockType
  else if s = "voxelStructRandomDisplaceVertical" then .ok .voxelStructRandomDisplaceVertical
  else if s = "voxelStructRandomDisplaceHorizontal" then .ok .voxelStructRandomDisplaceHorizontal
  else if s = "box" then .ok .box
  else .error (.invalidValue s)

/-! ## The panic of `LingoData::parse`

The quoted-string branch of the Rust function slices `&text[1..text.len()-1]`
guarded only by `starts_with("\"") && ends_with("\"")`.  On the one-character
input `"` both guards hold and the slice `1..0` panics.  (The other two
slicing branches force a length of at least 2 resp. 7 because their delimiters
are distinct strings.)  The embedding above totalizes that slice (it yields
the empty interior), and this predicate captures exactly the inputs on which
the Rust original aborts instead — directly, or through the recursive parse of
a bracketed-list piece, whose failure `filter_map` cannot intercept because
the panic unwinds first. -/

def LingoData.parsePanicsFuel : Nat → List Char → Bool
  | 0, _ => false
  | fuel + 1, l =>
    let text := trimChars l
    if text.head? = some '[' ∧ text.getLast? = some ']' then
      (splitCommasChars ((text.drop 1).dropLast)).any
        (fun sub => LingoData.parsePanicsFuel fuel sub)
    else if ("point(".data.isPrefixOf text) ∧ text.getLast? = some ')' then
      false
    else decide (text = ['"'])

/-- Whether `LingoData::parse` panics on the given input (see
`LingoData.parsePanicsFuel`). -/
def LingoData.parsePanics (text : String) : Bool :=
  LingoData.parsePanicsFuel text.data.length text.data

/-! ## The flat-property scanner of `parse_tile_info` (`REGEXSTR_PROPS`)

```
\#(\w+):("[\\\w\d\s+_-]*?"|point\([\s\d,-]*?\)|
         \[\s*((\s*?,?\s*?(-?\d+|"[\w\d\s]*?"))*?)\s*\]|\d+)
```

`captures_iter` walks the text left to right, tries the pattern at each
position and continues after the end of each match.  The four value
alternatives start with distinct characters, so the leftmost-first alternation
is decided by the first value character.  Lazy character-class repetitions
(`[...]*?` followed by a closing delimiter not in the class) stop at the first
occurrence of the delimiter.  The matchers below return the matched slice and
the rest of the input. -/

/-- Char class `[\\\w\d\s+_-]` of the quoted-string alternative. -/
def clsQuoted (c : Char) : Bool :=
  c = '\\' || isWordC c || isWs c || c = '+' || c = '_' || c = '-'

/-- Char class `[\s\d,-]` of the point alternative. -/
def clsPoint (c : Char) : Bool := isWs c || isDigitC c || c = ',' || c = '-'

/-- Char class `[\w\d\s]` of the string atoms inside a bracketed list. -/
def clsInnerStr (c : Char) : Bool := isWordC c || isWs c

/-- A lazy class repetition up to a closing delimiter: consume characters of
`cls` until the first `stop`; fail on any other character or at end of input.
Returns the interior and the rest after the delimiter. -/
def lazyClassUntil (cls : Char → Bool) (stop : Char) :
    List Char → Option (List Char × List Char)
  | [] => none
  | c :: rest =>
    if c = stop then some ([], rest)
    else if cls c then
      (lazyClassUntil cls stop rest).map (fun p => (c :: p.1, p.2))
    else none

/-- Alternative 1, `"[\\\w\d\s+_-]*?"`. -/
def matchQuoted : List Char → Option (List Char × List Char)
  | '"' :: rest =>
    (lazyClassUntil clsQuoted '"' rest).map
      (fun p => ('"' :: p.1 ++ ['"'], p.2))
  | _ => none

/-- Alternative 2, `point\([\s\d,-]*?\)`. -/
def matchPoint (l : List Char) : Option (List Char × List Char) :=
  if "point(".data.isPrefixOf l then
    (lazyClassUntil clsPoint ')' (l.drop 6)).map
      (fun p => ("point(".data ++ p.1 ++ [')'], p.2))
  else none

/-- Alternative 4, `\d+` (greedy). -/
def matchNumber (l : List Char) : Option (List Char × List Char) :=
  let ds := l.takeWhile isDigitC
  if ds.isEmpty then none else some (ds, l.drop ds.length)

/-- States of the bracketed-list alternative
`\[\s*((\s*?,?\s*?(-?\d+|"[\w\d\s]*?"))*?)\s*\]`, processed one character at a
time: `start` (between items: whitespace, a separating comma, the closing
bracket or the next atom may follow), `afterComma` (a comma was consumed, an
atom must follow), `afterMinus` (a sign was consumed, a digit must follow),
`inNum` (inside a greedy digit run), `inStr` (inside a string atom). -/
inductive A3State
  | start
  | afterComma
  | afterMinus
  | inNum
  | inStr

/-- Character-at-a-time matcher for the bracketed-list alternative after the
opening `[`; `acc` holds the consumed characters reversed.  A digit run ends
at the first non-digit, which is then handled exactly like the `start`
state (per the regex, a comma between atoms is optional and a new atom or the
closing bracket may follow a number directly). -/
def a3Go : A3State → List Char → List Char → Option (List Char × List Char)
  | _, _, [] => none
  | st, acc, c :: rest =>
    match st with
    | .start =>
      if c = ']' then some ((c :: acc).reverse, rest)
      else if isWs c then a3Go .start (c :: acc) rest
      else if c = ',' then a3Go .afterComma (c :: acc) rest
      else if c = '-' then a3Go .afterMinus (c :: acc) rest
      else if isDigitC c then a3Go .inNum (c :: acc) rest
      else if c = '"' then a3Go .inStr (c :: acc) rest
      else none
    | .afterComma =>
      if isWs c then a3Go .afterComma (c :: acc) rest
      else if c = '-' then a3Go .afterMinus (c :: acc) rest
      else if isDigitC c then a3Go .inNum (c :: acc) rest
      else if c = '"' then a3Go .inStr (c :: acc) rest
      else none
    | .afterMinus =>
      if isDigitC c then a3Go .inNum (c :: acc) rest else none
    | .inNum =>
      if isDigitC c then a3Go .inNum (c :: acc) rest
      else if c = ']' then some ((c :: acc).reverse, rest)
      else if isWs c then a3Go .start (c :: acc) rest
      else if c = ',' then a3Go .afterComma (c :: acc) rest
      else if c = '-' then a3Go .afterMinus (c :: acc) rest
      else if c = '"' then a3Go .inStr (c :: acc) rest
      else none
    | .inStr =>
      if c = '"' then a3Go .start (c :: acc) rest
      else if clsInnerStr c then a3Go .inStr (c :: acc) rest
      else none

/-- Alternative 3, the bracketed list. -/
def matchArray : List Char → Option (List Char × List Char)
  | '[' :: rest => a3Go .start ['['] rest
  | _ => none

/-- The value alternation of `REGEXSTR_PROPS`, first match wins. -/
def matchValue (l : List Char) : Option (List Char × List Char) :=
  match matchQuoted l with
  | some r => some r
  | none =>
    match matchPoint l with
    | some r => some r
    | none =>
      match matchArray l with
      | some r => some r
      | none => matchNumber l

/-- One attempted match of `\#(\w+):(value)` at the current position:
the literal `#`, a greedy nonempty `\w+` key (the character after a maximal
word run can never be the required `:`, so no backtracking arises), `:`, then
the value alternation.  Returns key, value and the rest after the match. -/
def matchProp (l : List Char) : Option (List Char × List Char × List Char) :=
  match l with
  | '#' :: rest =>
    let key := rest.takeWhile isWordC
    if key.isEmpty then none
    else
      match rest.drop key.length with
      | ':' :: rest2 =>
        (matchValue rest2).map (fun p => (key, p.1, p.2))
      | _ => none
  | _ => none

/-- The `captures_iter` scan: try `matchProp` at every position, resume after
each match.  Every step consumes at least one character, so fuel equal to the
input length never runs out. -/
def scanPropsAux : Nat → List Char → List (String × String)
  | 0, _ => []
  | _ + 1, [] => []
  | fuel + 1, l =>
    match matchProp l with
    | some (k, v, rest) => (String.mk k, String.mk v) :: scanPropsAux fuel rest
    | none => scanPropsAux fuel (l.drop 1)

/-- All `#key:value` properties of a line, in match order. -/
def scanProps (l : List Char) : List (String × String) :=
  scanPropsAux l.length l

/-- `HashMap` lookup where repeated `insert`s of the same key make the last
occurrence win. -/
def lookupLast (key : String) : List (String × String) → Option String
  | [] => none
  | (k, v) :: rest =>
    match lookupLast key rest with
    | some r => some r
    | none => if k = key then some v else none

/-! ## `parse_tile_info` -/

/-- The `get_prop!` macro: raw property text for a key, or the
`concat!("WARNING: MISSING ITEM ", key)` placeholder. -/
def tfRaw (text key : String) : String :=
  (lookupLast key (scanProps text.data)).getD ("WARNING: MISSING ITEM " ++ key)

/-- The `get_prop!` macro, second half: the raw text run through
`LingoData::parse`. -/
def tfVal (text key : String) : Except DeserError LingoData :=
  LingoData.parse (tfRaw text key)

/-- The `cast_enum!` macro at `String`. -/
def castString (key : String) : Except DeserError LingoData → Except DeserError String
  | .ok (.str v) => .ok v
  | .ok v => .error (.typeMismatch key "String" (reprLingo v))
  | .error e => .error e

/-- The `cast_enum!` macro at `Point`. -/
def castPoint (key : String) : Except DeserError LingoData → Except DeserError (List Int)
  | .ok (.point v) => .ok v
  | .ok v => .error (.typeMismatch key "Point" (reprLingo v))
  | .error e => .error e

/-- The `cast_enum!` macro at `Number`. -/
def castNumber (key : String) : Except DeserError LingoData → Except DeserError Int
  | .ok (.number v) => .ok v
  | .ok v => .error (.typeMismatch key "Number" (reprLingo v))
  | .error e => .error e

/-- `parse_tile_info` of `lingo_de.rs`.  The nested matches mirror the `?`
propagation of the Rust struct literal, in its field order: `name`, `size`,
`specs`, `specs2` (infallible after `ok()`), `tile_type`, `repeat_layers`
(infallible), `buffer_tiles`, `random_vars` (infallible), `preview_pos`,
`tags` (value parse never fails, narrowing failure degrades to `[]`). -/
def parse_tile_info (text : String) (from_vanilla : Bool) :
    Except DeserError TileInfo :=
  let name := castString "nm" (tfVal text "nm")
  let size := castPoint "sz" (tfVal text "sz")
  let specs := tfVal text "specs"
  let specs2 := tfVal text "specs2"
  let tile_type := castString "tp" (tfVal text "tp")
  let repeat_layers := tfVal text "repeatL"
  let buffer_tiles := castNumber "bfTiles" (tfVal text "bfTiles")
  let random_vars := castNumber "rnd" (tfVal text "rnd")
  let preview_pos := castNumber "ptPos" (tfVal text "ptPos")
  let tags := tfVal text "tags"
  match name with
  | .error e => .error e
  | .ok namev =>
  match size with
  | .error e => .error e
  | .ok sizev =>
  match specs with
  | .error e => .error e
  | .ok specsv =>
  match specsv.as_tilecell_array with
  | .error e => .error e
  | .ok specsArr =>
  match specs2 with
  | .error e => .error e
  | .ok specs2v =>
  let specs2Arr := match specs2v.as_null_if_zero.as_tilecell_array with
    | .ok a => some a
    | .error _ => none
  match tile_type with
  | .error e => .error e
  | .ok tpsv =>
  match TileType.from_string tpsv with
  | .error e => .error e
  | .ok tpv =>
  let repeatArr := match repeat_layers with
    | .ok v => match v.as_number_array with
      | .ok a => some a
      | .error _ => none
    | .error _ => none
  match buffer_tiles with
  | .error e => .error e
  | .ok bfv =>
  let rndOpt := match random_vars with
    | .ok v => some v
    | .error _ => none
  match preview_pos with
  | .error e => .error e
  | .ok ptv =>
  match tags with
  | .error e => .error e
  | .ok tagsv =>
  let tagsArr := match tagsv.as_string_array with
    | .ok a => a
    | .error _ => []
  .ok { name := namev, size := sizev, specs := specsArr, specs2 := specs2Arr,
        tile_type := tpv, repeat_layers := repeatArr, buffer_tiles := bfv,
        random_vars := rndOpt, preview_pos := ptv, tags := tagsArr,
        active := from_vanilla }

/-! ## `parse_category_header`

`REGEXSTR_CATEGORY` is `"(.+?)"\s*?,\s*?color\((.+?)\)` and
`REGEXSTR_CATEGORY_INDEX` is `--CATEGORY_INDEX:(\d+)$`.  `captures` finds the
leftmost match.  The lazy `\s*?` runs are followed by characters that are not
whitespace, so they amount to skipping the whitespace run; the lazy `(.+?)`
captures extend one character at a time (any character but a newline) until
the continuation matches. -/

/-- Continuation after the closing quote of the category name:
`\s*?,\s*?color\(` followed by the lazy `(.+?)\)` color capture, which takes
at least one character and stops at the first `)` thereafter. -/
def matchAfterName (l : List Char) : Option (List Char) :=
  match l.dropWhile isWs with
  | ',' :: r2 =>
    let r3 := r2.dropWhile isWs
    if "color(".data.isPrefixOf r3 then
      match r3.drop 6 with
      | [] => none
      | c :: r4 =>
        if c = '\n' then none
        else
          let inner := r4.takeWhile (fun d => d ≠ ')' && d ≠ '\n')
          match r4.drop inner.length with
          | ')' :: _ => some (c :: inner)
          | _ => none
    else none
  | _ => none

/-- The lazy name capture `(.+?)` after the opening quote: grow the capture
one (non-newline) character at a time; at each closing-quote candidate accept
iff the continuation `matchAfterName` succeeds, otherwise the quote itself is
swallowed by the capture and the search goes on. -/
def catNameLoop (acc : List Char) : List Char → Option (List Char × List Char)
  | [] => none
  | x :: rest =>
    if x = '\n' then none
    else
      match rest with
      | '"' :: r2 =>
        match matchAfterName r2 with
        | some col => some ((x :: acc).reverse, col)
        | none => catNameLoop (x :: acc) rest
      | _ => catNameLoop (x :: acc) rest

/-- Leftmost-match scan of `REGEXSTR_CATEGORY`: the pattern starts with a
literal quote, so try the name capture at every quote and advance one
character on failure.  Yields capture 1 (the name) and capture 2 (the color
channel text). -/
def findCategoryCaps : List Char → Option (List Char × List Char)
  | [] => none
  | c :: rest =>
    if c = '"' then
      match catNameLoop [] rest with
      | some res => some res
      | none => findCategoryCaps rest
    else findCategoryCaps rest

/-- Leftmost-match scan of `REGEXSTR_CATEGORY_INDEX`: a literal
`--CATEGORY_INDEX:` followed by a greedy nonempty digit run that must reach
the end of the line (`$`); on failure the scan advances one character. -/
def findCategoryIndex : List Char → Option (List Char)
  | [] => none
  | l@(_ :: rest) =>
    if "--CATEGORY_INDEX:".data.isPrefixOf l then
      let r := l.drop 17
      let ds := r.takeWhile isDigitC
      if ds.isEmpty = false ∧ r.drop ds.length = [] then some ds
      else findCategoryIndex rest
    else findCategoryIndex rest

/-- `parse_category_header` of `lingo_de.rs`. -/
def parse_category_header (text : String) : Except DeserError TileCategory :=
  match findCategoryCaps text.data with
  | some (nm, colstr) =>
    let col := (splitCommasChars colstr).filterMap parseU8
    let color := (col.getD 0 0, col.getD 1 0, col.getD 2 0)
    let index := match findCategoryIndex text.data with
      | some ds => (parseUsize ds).getD 0
      | none => 0
    .ok (TileCategory.new_main (String.mk nm) color index)
  | none => .error .todo

/-! ## `parse_tile_init`, the document assembler -/

/-- Rust `str::lines` on a character list: split at `'\n'`, drop a trailing
empty piece (text ending in a newline, or empty text), strip one trailing
`'\r'` per line. -/
def splitNlAux (acc : List Char) : List Char → List (List Char)
  | [] => [acc.reverse]
  | c :: r =>
    if c = '\n' then acc.reverse :: splitNlAux [] r else splitNlAux (c :: acc) r

/-- Rust `str::lines`. -/
def rustLines (s : String) : List String :=
  let parts := splitNlAux [] s.data
  let parts := if parts.getLast? = some [] then parts.dropLast else parts
  (parts.map (fun p => if p.getLast? = some '\r' then p.dropLast else p)).map String.mk

/-- The line filter of `parse_tile_init`:
`!line.starts_with("--") && !line.trim().is_empty()`. -/
def tileLinesFilter (line : String) : Bool :=
  !(rsStartsWith line "--") && !(trimChars line.data).isEmpty

/-- The comment- and blank-filtered lines `parse_tile_init` iterates over. -/
def filteredLines (text : String) : List String :=
  (rustLines text).filter tileLinesFilter

/-- The additional-category lookup loop of `parse_tile_init` (lines 298-304):
the first structurally equal prior category donates its subfolder and tile
list to the freshly parsed header category; `break` stops at the first hit. -/
def mergeAdditional : List TileCategory → TileCategory → TileCategory
  | [], newcat => newcat
  | oldcat :: rest, newcat =>
    if oldcat = newcat then
      { newcat with subfolder := oldcat.subfolder, tiles := oldcat.tiles }
    else mergeAdditional rest newcat

/-- `category.tiles[index] = new_item` at the first structurally equal
position (`iter().position`). -/
def replaceFirst : List TileInfo → TileInfo → List TileInfo
  | [], _ => []
  | x :: xs, a => if x = a then a :: xs else x :: replaceFirst xs a

/-- The tile-record insertion of `parse_tile_init` (lines 318-327): replace a
structurally equal tile in place, else append. -/
def addOrReplaceTile (cat : TileCategory) (item : TileInfo) : TileCategory :=
  if item ∈ cat.tiles then { cat with tiles := replaceFirst cat.tiles item }
  else { cat with tiles := cat.tiles ++ [item] }

/-- The mutable loop state of `parse_tile_init`. -/
structure AsmState where
  errored_lines : List (String × DeserError)
  current_category : Option TileCategory
  categories : List TileCategory
  deriving DecidableEq

/-- One line of the `parse_tile_init` loop (lines 290-332). -/
def initStep (additional : List TileCategory) (st : AsmState) (line : String) :
    AsmState :=
  if rsStartsWith line "-[" then
    match parse_category_header line with
    | .ok newcat0 =>
      let newcat := mergeAdditional additional newcat0
      let cats := match st.current_category with
        | some category => st.categories ++ [category]
        | none => st.categories
      { st with categories := cats, current_category := some newcat }
    | .error err => { st with errored_lines := st.errored_lines ++ [(line, err)] }
  else
    match parse_tile_info line true with
    | .ok new_item =>
      match st.current_category with
      | some category =>
        { st with current_category := some (addOrReplaceTile category new_item) }
      | none => st
    | .error err => { st with errored_lines := st.errored_lines ++ [(line, err)] }

/-- The ordinal-defaulting loop of `parse_tile_init` (lines 344-349), i.e.
`for i in indices(&categories) { if categories[i].index == 0 { .. = i } }`;
`utl::indices` (not under src/) enumerates the positions `0..len`, per the
spec: "categories with ordinal == unset sentinel (0) receive their final
positional index". -/
def assignIdxAux (i : Nat) : List TileCategory → List TileCategory
  | [] => []
  | c :: cs =>
    (if c.index = 0 then { c with index := i } else c) :: assignIdxAux (i + 1) cs

/-- Insertion step of a stable sort of categories by ordinal. -/
def insertCat (c : TileCategory) : List TileCategory → List TileCategory
  | [] => [c]
  | x :: xs => if x.index ≤ c.index then x :: insertCat c xs else c :: x :: xs

/-- Stable insertion sort of categories by ordinal. -/
def isortCats : List TileCategory → List TileCategory
  | [] => []
  | c :: cs => insertCat c (isortCats cs)

/-- Reassign each category's ordinal to its list position. -/
def withIdx (i : Nat) : List TileCategory → List TileCategory
  | [] => []
  | c :: cs => { c with index := i } :: withIdx (i + 1) cs

/-- Modelled from the spec: `TileInit::sort_and_normalize_categories` is not
under src/; §4.4 asks for "a final total, duplicate-free, idempotent ordering
pass": a stable sort by ordinal followed by reassigning each ordinal to its
position, which makes the ordinals duplicate-free and the pass idempotent. -/
def TileInit.sort_and_normalize_categories (t : TileInit) : TileInit :=
  { t with categories := withIdx 0 (isortCats t.categories) }

/-- `parse_tile_init` of `lingo_de.rs`. -/
def parse_tile_init (text : String) (additional_categories : List TileCategory)
    (root : String) : Except AppError TileInit :=
  let st := (filteredLines text).foldl (initStep additional_categories)
    { errored_lines := [], current_category := none, categories := [] }
  match st.current_category with
  | none =>
    .ok { root := root, categories := st.categories,
          errored_lines := st.errored_lines }
  | some category =>
    let categories := st.categories ++ [category]
    let categories_clone := categories
    let categories := categories ++
      additional_categories.filter (fun cat => decide (cat ∉ categories_clone))
    let categories := assignIdxAux 0 categories
    let tile_init : TileInit :=
      { root := root, categories := categories,
        errored_lines := st.errored_lines }
    .ok tile_init.sort_and_normalize_categories

/-! ## The per-subfolder scan of `collect_categories_from_subfolders`

Only the pure scanning loop (lines 403-424) is embedded; the directory
enumeration and file reads around it are the external I/O collaborators of
§6.  `category_found` is declared immutable and never set in the source, so
the guard on the header branch never blocks. -/

/-- The never-reassigned `let category_found = false;` of line 403. -/
def category_found : Bool := false

/-- One line of the subfolder scan loop (lines 404-424). -/
def subStep (st : TileCategory × List (String × DeserError)) (line : String) :
    TileCategory × List (String × DeserError) :=
  let category := st.1
  let errors := st.2
  match findCategoryIndex line.data with
  | some ds => ({ category with index := (parseUsize ds).getD 1 }, errors)
  | none =>
    if !category_found && rsStartsWith line "-[" then
      match parse_category_header line with
      | .ok newcat =>
        ({ category with name := newcat.name, color := newcat.color }, errors)
      | .error err => (category, errors ++ [(line, err)])
    else
      match parse_tile_info line true with
      | .ok new_item =>
        ({ category with tiles := category.tiles ++ [new_item] }, errors)
      | .error err => (category, errors ++ [(line, err)])

/-- The subfolder scan applied to the (comment- and blank-filtered) lines of a
subfolder's init document, starting from the directory-derived category. -/
def subfolderScan (cat0 : TileCategory) (contents : String) :
    TileCategory × List (String × DeserError) :=
  (filteredLines contents).foldl subStep (cat0, [])

/-! ## Derived notions used in the statements -/

/-- Rust `Result::ok()`. -/
def okOpt {ε α : Type} : Except ε α → Option α
  | .ok a => some a
  | .error _ => none

/-- Provenance of an entry of the error log: the line was processed by the
branch its shape selects and that branch failed on it. -/
def lineFailure (l : String) (e : DeserError) : Prop :=
  (rsStartsWith l "-[" = true ∧ parse_category_header l = .error e) ∨
  (rsStartsWith l "-[" = false ∧ parse_tile_info l true = .error e)

/-- The lines of a subfolder init document that reach the header branch of
the subfolder scan and parse successfully, with their parse result: no
trailing `--CATEGORY_INDEX` marker (that branch is checked first), a `-[`
prefix, and a successful `parse_category_header`. -/
def headerOv (line : String) : Option TileCategory :=
  if findCategoryIndex line.data = none ∧ rsStartsWith line "-[" = true then
    okOpt (parse_category_header line)
  else none

/-! ## Concrete material for the witnesses and the counterexample -/

/-- A tile-record line every required key of which narrows successfully. -/
def tileLineA : String :=
  "#nm:\"a\"#sz:point(1,1)#specs:[1]#tp:\"voxelStruct\"#bfTiles:0#ptPos:0"

/-- A second, structurally distinct tile-record line. -/
def tileLineB : String :=
  "#nm:\"b\"#sz:point(1,1)#specs:[1]#tp:\"voxelStruct\"#bfTiles:0#ptPos:0"

/-- The `TileInfo` that `parse_tile_info tileLineA true` produces. -/
def tileA : TileInfo where
  name := "a"
  size := [1, 1]
  specs := [TileCell.mk 1]
  specs2 := none
  tile_type := .voxelStruct
  repeat_layers := none
  buffer_tiles := 0
  random_vars := none
  preview_pos := 0
  tags := []
  active := true

/-- The `TileInfo` that `parse_tile_info tileLineB true` produces. -/
def tileB : TileInfo := { tileA with name := "b" }

/-- A category header line without ordinal marker. -/
def headerLineCat : String := "-[\"Cat\", color(1,2,3)]"

/-- A three-line document: one header, two distinct tile records. -/
def docThreeLines : String :=
  headerLineCat ++ "\n" ++ tileLineA ++ "\n" ++ tileLineB

/-- A tile-record line whose `specs` key is present but holds a number
instead of the expected bracketed list, all other required keys fine. -/
def specsMismatchLine : String :=
  "#nm:\"a\"#sz:point(1,1)#specs:0#tp:\"voxelStruct\"#bfTiles:1#ptPos:1"

/-- A two-header document for the normalization witness: explicit ordinal 7,
then an unset ordinal. -/
def docTwoHeaders : String :=
  "-[\"A\", color(1,2,3)--CATEGORY_INDEX:7" ++ "\n" ++ "-[\"B\", color(4,5,6)]"

/-- A document none of whose lines parses as a category header. -/
def docNoHeader : String := "garbage" ++ "\n" ++ "-[broken" ++ "\n" ++ "#nm:5"

/-- A subfolder init document with two header lines. -/
def subTwoHeaders : String :=
  "-[\"A\", color(1,2,3)]" ++ "\n" ++ "-[\"B\", color(4,5,6)]"

/-! # Helper lemmas -/

theorem parseFuel_total (fuel : Nat) (l : List Char) :
    ∃ v, LingoData.parseFuel fuel l = .ok v := by
  cases fuel with
  | zero => exact ⟨_, rfl⟩
  | succ n =>
    unfold LingoData.parseFuel
    dsimp only
    repeat' split
    all_goals exact ⟨_, rfl⟩

theorem lingo_parse_total (s : String) : ∃ v, LingoData.parse s = .ok v :=
  parseFuel_total _ _

theorem tfVal_total (text key : String) : ∃ v, tfVal text key = .ok v :=
  lingo_parse_total _

theorem castString_not_str (k : String) (v : LingoData) (h : ∀ s, v ≠ .str s) :
    castString k (.ok v) = .error (.typeMismatch k "String" (reprLingo v)) := by
  cases v with
  | str s => exact absurd rfl (h s)
  | _ => rfl

theorem castPoint_not_point (k : String) (v : LingoData) (h : ∀ ns, v ≠ .point ns) :
    castPoint k (.ok v) = .error (.typeMismatch k "Point" (reprLingo v)) := by
  cases v with
  | point ns => exact absurd rfl (h ns)
  | _ => rfl

theorem castNumber_not_number (k : String) (v : LingoData) (h : ∀ n, v ≠ .number n) :
    castNumber k (.ok v) = .error (.typeMismatch k "Number" (reprLingo v)) := by
  cases v with
  | number n => exact absurd rfl (h n)
  | _ => rfl

theorem as_tilecell_not_array (v : LingoData) (h : ∀ xs, v ≠ .array xs) :
    v.as_tilecell_array =
      .error (.dataConvertFailed ("could not build tilecellArray from " ++ reprLingo v)) := by
  cases v with
  | array xs => exact absurd rfl (h xs)
  | _ => rfl

theorem parse_category_header_ok_shape (line : String) (H : TileCategory)
    (h : parse_category_header line = .ok H) :
    H.tiles = [] ∧ H.subfolder = none ∧ H.enabled = true := by
  unfold parse_category_header at h
  split at h
  · have h2 := Except.ok.inj h
    subst h2
    exact ⟨rfl, rfl, rfl⟩
  · exact Except.noConfusion h

/-! # Claim theorems -/

/-- C2: when a header line parses to a category `H` structurally equal to one
of the supplied additional categories, the merged category keeps `H`'s name
and color and inherits the matched additional category's subfolder path and
entire tile list (`mergeAdditional` is the additional-category lookup loop of
`parse_tile_init`). -/
theorem c2_header_merge_inherits (adds : List TileCategory) (H : TileCategory)
    (hmem : ∃ old ∈ adds, old = H) :
    (mergeAdditional adds H).name = H.name ∧
    (mergeAdditional adds H).color = H.color ∧
    ∃ old ∈ adds, old = H ∧
      (mergeAdditional adds H).subfolder = old.subfolder ∧
      (mergeAdditional adds H).tiles = old.tiles := by
  induction adds with
  | nil =>
    obtain ⟨old, hold, _⟩ := hmem
    exact absurd hold (List.not_mem_nil old)
  | cons a rest ih =>
    by_cases ha : a = H
    · refine ⟨?_, ?_, a, List.mem_cons_self a rest, ha, ?_, ?_⟩ <;>
        simp [mergeAdditional, ha]
    · have hmem2 : ∃ old ∈ rest, old = H := by
        obtain ⟨old, hold, holdH⟩ := hmem
        rcases List.mem_cons.mp hold with h | h
        · exact absurd (h ▸ holdH) ha
        · exact ⟨old, h, holdH⟩
      have hm : mergeAdditional (a :: rest) H = mergeAdditional rest H := by
        simp [mergeAdditional, ha]
      obtain ⟨h1, h2, old, hold, holdH, h3, h4⟩ := ih hmem2
      exact ⟨hm ▸ h1, hm ▸ h2, old, List.mem_cons_of_mem a hold, holdH,
        hm ▸ h3, hm ▸ h4⟩

/-- C2 witness: a concrete additional category structurally equal to the
header-parsed category of the C8 example line. -/
theorem c2_header_merge_inherits_witness :
    (mergeAdditional [TileCategory.new_main "Pipes" (10, 20, 30) 2]
        (TileCategory.new_main "Pipes" (10, 20, 30) 2)).name =
      (TileCategory.new_main "Pipes" (10, 20, 30) 2).name ∧
    (mergeAdditional [TileCategory.new_main "Pipes" (10, 20, 30) 2]
        (TileCategory.new_main "Pipes" (10, 20, 30) 2)).color =
      (TileCategory.new_main "Pipes" (10, 20, 30) 2).color ∧
    ∃ old ∈ [TileCategory.new_main "Pipes" (10, 20, 30) 2],
      old = TileCategory.new_main "Pipes" (10, 20, 30) 2 ∧
      (mergeAdditional [TileCategory.new_main "Pipes" (10, 20, 30) 2]
          (TileCategory.new_main "Pipes" (10, 20, 30) 2)).subfolder = old.subfolder ∧
      (mergeAdditional [TileCategory.new_main "Pipes" (10, 20, 30) 2]
          (TileCategory.new_main "Pipes" (10, 20, 30) 2)).tiles = old.tiles :=
  c2_header_merge_inherits _ _ ⟨_, List.mem_singleton_self _, rfl⟩

/-- C3: a tile-record line that parses successfully while the assembler holds
no current category leaves the assembler state — and hence the final output —
completely unchanged: no tile lands anywhere and nothing is logged. -/
theorem c3_pre_header_tile_dropped (adds : List TileCategory) (st : AsmState)
    (line : String) (hcc : st.current_category = none)
    (hnh : rsStartsWith line "-[" = false)
    (hok : ∃ t, parse_tile_info line true = .ok t) :
    initStep adds st line = st := by
  obtain ⟨t, ht⟩ := hok
  unfold initStep
  simp only [hnh, Bool.false_eq_true, if_false, ht, hcc]

/-- C3 witness: the concrete well-formed tile line processed from a
no-current-category state with a nonempty error log. -/
theorem c3_pre_header_tile_dropped_witness :
    initStep []
      { errored_lines := [("bad", DeserError.todo)], current_category := none,
        categories := [] } tileLineA =
      { errored_lines := [("bad", DeserError.todo)], current_category := none,
        categories := [] } :=
  c3_pre_header_tile_dropped [] _ tileLineA rfl rfl ⟨tileA, rfl⟩

/-- C5 (amended): a present-but-wrong-variant value under `nm`, `sz`, `tp`,
`bfTiles` or `ptPos` aborts `parse_tile_info` with `TypeMismatch` naming that
key, fail-fast in the field order of the record construction; a
wrong-variant `specs` value, however, aborts with `DataConvertFailed` (the
message of `as_tilecell_array`), which names no key. -/
theorem c5_required_key_failures (text : String) (b : Bool) :
    (∀ v, tfVal text "nm" = .ok v → (∀ s, v ≠ .str s) →
      parse_tile_info text b =
        .error (.typeMismatch "nm" "String" (reprLingo v))) ∧
    (∀ a v, castString "nm" (tfVal text "nm") = .ok a →
      tfVal text "sz" = .ok v → (∀ ns, v ≠ .point ns) →
      parse_tile_info text b =
        .error (.typeMismatch "sz" "Point" (reprLingo v))) ∧
    (∀ a p v, castString "nm" (tfVal text "nm") = .ok a →
      castPoint "sz" (tfVal text "sz") = .ok p →
      tfVal text "specs" = .ok v → (∀ xs, v ≠ .array xs) →
      parse_tile_info text b =
        .error (.dataConvertFailed
          ("could not build tilecellArray from " ++ reprLingo v))) ∧
    (∀ a p xs v, castString "nm" (tfVal text "nm") = .ok a →
      castPoint "sz" (tfVal text "sz") = .ok p →
      tfVal text "specs" = .ok (.array xs) →
      tfVal text "tp" = .ok v → (∀ s, v ≠ .str s) →
      parse_tile_info text b =
        .error (.typeMismatch "tp" "String" (reprLingo v))) ∧
    (∀ a p xs s tt v, castString "nm" (tfVal text "nm") = .ok a →
      castPoint "sz" (tfVal text "sz") = .ok p →
      tfVal text "specs" = .ok (.array xs) →
      castString "tp" (tfVal text "tp") = .ok s →
      TileType.from_string s = .ok tt →
      tfVal text "bfTiles" = .ok v → (∀ n, v ≠ .number n) →
      parse_tile_info text b =
        .error (.typeMismatch "bfTiles" "Number" (reprLingo v))) ∧
    (∀ a p xs s tt bf v, castString "nm" (tfVal text "nm") = .ok a →
      castPoint "sz" (tfVal text "sz") = .ok p →
      tfVal text "specs" = .ok (.array xs) →
      castString "tp" (tfVal text "tp") = .ok s →
      TileType.from_string s = .ok tt →
      castNumber "bfTiles" (tfVal text "bfTiles") = .ok bf →
      tfVal text "ptPos" = .ok v → (∀ n, v ≠ .number n) →
      parse_tile_info text b =
        .error (.typeMismatch "ptPos" "Number" (reprLingo v))) := by
  obtain ⟨v2, hv2⟩ := tfVal_total text "specs2"
  refine ⟨?_, ?_, ?_, ?_, ?_, ?_⟩
  · intro v hv hns
    unfold parse_tile_info
    rw [hv, castString_not_str "nm" v hns]
  · intro a v ha hv hnp
    unfold parse_tile_info
    rw [ha, hv, castPoint_not_point "sz" v hnp]
  · intro a p v ha hp hv hna
    unfold parse_tile_info
    rw [ha, hp, hv]
    dsimp only
    rw [as_tilecell_not_array v hna]
  · intro a p xs v ha hp hsp hv hns
    simp only [parse_tile_info, ha, hp, hsp, hv2, hv,
      castString_not_str "tp" v hns, LingoData.as_tilecell_array,
      LingoData.as_number_array]
  · intro a p xs s tt v ha hp hsp hs htt hv hnn
    simp only [parse_tile_info, ha, hp, hsp, hv2, hs, htt, hv,
      castNumber_not_number "bfTiles" v hnn, LingoData.as_tilecell_array,
      LingoData.as_number_array]
  · intro a p xs s tt bf v ha hp hsp hs htt hbf hv hnn
    simp only [parse_tile_info, ha, hp, hsp, hv2, hs, htt, hbf, hv,
      castNumber_not_number "ptPos" v hnn, LingoData.as_tilecell_array,
      LingoData.as_number_array]

/-- C5 witness: the line `#nm:5` carries `nm` as a number, so the record
aborts with a `TypeMismatch` naming `nm`. -/
theorem c5_required_key_failures_witness :
    parse_tile_info "#nm:5" true =
      .error (.typeMismatch "nm" "String" (reprLingo (.number 5))) :=
  (c5_required_key_failures "#nm:5" true).1 (.number 5) rfl (fun s h => nomatch h)

/-- C5 counterexample: on `specsMismatchLine`, `specs` is present and holds
`Number(0)` instead of a bracketed list, every other required key narrows
fine, yet the error is `DataConvertFailed` — not the `TypeMismatch` naming
`specs` that the claim promises for all six required keys. -/
theorem c5_required_key_failures_counterexample :
    tfVal specsMismatchLine "specs" = .ok (.number 0) ∧
    parse_tile_info specsMismatchLine true =
      .error (.dataConvertFailed
        ("could not build tilecellArray from " ++ reprLingo (.number 0))) ∧
    ∀ e g, DeserError.dataConvertFailed
        ("could not build tilecellArray from " ++ reprLingo (.number 0)) ≠
      .typeMismatch "specs" e g :=
  ⟨rfl, rfl, fun e g h => DeserError.noConfusion h⟩

/-- Error-log entries written by one assembler step keep their provenance:
a new entry records exactly the failing branch of its line. -/
theorem initStep_err_inv (adds : List TileCategory) (st : AsmState)
    (line : String) (h : ∀ p ∈ st.errored_lines, lineFailure p.1 p.2) :
    ∀ p ∈ (initStep adds st line).errored_lines, lineFailure p.1 p.2 := by
  intro p hp
  unfold initStep at hp
  cases hl : rsStartsWith line "-[" with
  | true =>
    simp only [hl, if_true] at hp
    cases hh : parse_category_header line with
    | ok c =>
      rw [hh] at hp
      exact h p hp
    | error e =>
      rw [hh] at hp
      dsimp only at hp
      rcases List.mem_append.mp hp with h1 | h1
      · exact h p h1
      · rw [List.mem_singleton] at h1
        subst h1
        exact Or.inl ⟨hl, hh⟩
  | false =>
    simp only [hl, Bool.false_eq_true, if_false] at hp
    cases hh : parse_tile_info line true with
    | ok t =>
      rw [hh] at hp
      cases hcc : st.current_category <;> rw [hcc] at hp <;> exact h p hp
    | error e =>
      rw [hh] at hp
      dsimp only at hp
      rcases List.mem_append.mp hp with h1 | h1
      · exact h p h1
      · rw [List.mem_singleton] at h1
        subst h1
        exact Or.inr ⟨hl, hh⟩

/-- Error-log provenance is preserved along the whole fold. -/
theorem foldl_err_inv (adds : List TileCategory) (lines : List String)
    (st : AsmState) (h : ∀ p ∈ st.errored_lines, lineFailure p.1 p.2) :
    ∀ p ∈ (lines.foldl (initStep adds) st).errored_lines, lineFailure p.1 p.2 := by
  induction lines generalizing st with
  | nil => exact h
  | cons l rest ih => exact ih _ (initStep_err_inv adds st l h)

/-- C1: `parse_tile_init` never returns an error, whatever the document, the
additional categories and the root; and every entry of the error log of the
returned `TileInit` is a (raw line, error) pair produced by the failing
branch of that line. -/
theorem c1_parse_tile_init_total (text : String) (adds : List TileCategory)
    (root : String) :
    ∃ ti, parse_tile_init text adds root = .ok ti ∧
      ∀ p ∈ ti.errored_lines, lineFailure p.1 p.2 := by
  have herr := foldl_err_inv adds (filteredLines text)
    { errored_lines := [], current_category := none, categories := [] }
    (fun p hp => absurd hp (List.not_mem_nil p))
  unfold parse_tile_init
  dsimp only
  split
  · exact ⟨_, rfl, herr⟩
  · exact ⟨_, rfl, herr⟩

/-- One assembler step on a line that cannot produce a header category: with
no current category, the state keeps no current category and untouched
categories, old log entries survive, and the line's own failure (if any) is
logged. -/
theorem initStep_no_header (adds : List TileCategory) (st : AsmState)
    (l : String) (hcc : st.current_category = none)
    (hnh : rsStartsWith l "-[" = true → okOpt (parse_category_header l) = none) :
    (initStep adds st l).current_category = none ∧
    (initStep adds st l).categories = st.categories ∧
    (∀ p ∈ st.errored_lines, p ∈ (initStep adds st l).errored_lines) ∧
    (∀ e, lineFailure l e → (l, e) ∈ (initStep adds st l).errored_lines) := by
  cases hl : rsStartsWith l "-[" with
  | true =>
    cases hh : parse_category_header l with
    | ok c =>
      have := hnh hl
      rw [hh] at this
      exact absurd this (by simp [okOpt])
    | error e0 =>
      have hstep : initStep adds st l =
          { st with errored_lines := st.errored_lines ++ [(l, e0)] } := by
        simp [initStep, hl, hh]
      rw [hstep]
      refine ⟨hcc, rfl, fun p hp => List.mem_append_left _ hp, ?_⟩
      intro e he
      rcases he with ⟨_, he⟩ | ⟨hfalse, _⟩
      · have he0 : e0 = e := Except.error.inj (hh.symm.trans he)
        subst he0
        exact List.mem_append_right _ (List.mem_singleton_self _)
      · exact Bool.noConfusion (hfalse.symm.trans hl)
  | false =>
    cases hh : parse_tile_info l true with
    | ok t =>
      have hstep : initStep adds st l = st := by
        simp [initStep, hl, hh, hcc]
      rw [hstep]
      refine ⟨hcc, rfl, fun p hp => hp, ?_⟩
      intro e he
      rcases he with ⟨htrue, _⟩ | ⟨_, he⟩
      · exact Bool.noConfusion (hl.symm.trans htrue)
      · exact Except.noConfusion (hh.symm.trans he)
    | error e0 =>
      have hstep : initStep adds st l =
          { st with errored_lines := st.errored_lines ++ [(l, e0)] } := by
        simp [initStep, hl, hh]
      rw [hstep]
      refine ⟨hcc, rfl, fun p hp => List.mem_append_left _ hp, ?_⟩
      intro e he
      rcases he with ⟨htrue, _⟩ | ⟨_, he⟩
      · exact Bool.noConfusion (hl.symm.trans htrue)
      · have he0 : e0 = e := Except.error.inj (hh.symm.trans he)
        subst he0
        exact List.mem_append_right _ (List.mem_singleton_self _)

/-- The assembler fold over a document none of whose lines header-parses:
no category ever starts, the category list stays put, the log grows
append-only, and every line's failure is logged. -/
theorem foldl_no_header (adds : List TileCategory) (lines : List String)
    (st : AsmState)
    (hnoh : ∀ l ∈ lines, rsStartsWith l "-[" = true →
      okOpt (parse_category_header l) = none)
    (hcc : st.current_category = none) :
    (lines.foldl (initStep adds) st).current_category = none ∧
    (lines.foldl (initStep adds) st).categories = st.categories ∧
    (∀ p ∈ st.errored_lines,
      p ∈ (lines.foldl (initStep adds) st).errored_lines) ∧
    (∀ l ∈ lines, ∀ e, lineFailure l e →
      (l, e) ∈ (lines.foldl (initStep adds) st).errored_lines) := by
  induction lines generalizing st with
  | nil =>
    exact ⟨hcc, rfl, fun p hp => hp, fun l hl => absurd hl (List.not_mem_nil l)⟩
  | cons l rest ih =>
    obtain ⟨s1, s2, s3, s4⟩ :=
      initStep_no_header adds st l hcc (hnoh l (List.mem_cons_self l rest))
    obtain ⟨f1, f2, f3, f4⟩ := ih (initStep adds st l)
      (fun x hx => hnoh x (List.mem_cons_of_mem l hx)) s1
    refine ⟨f1, f2.trans s2, fun p hp => f3 p (s3 p hp), ?_⟩
    intro x hx e he
    rcases List.mem_cons.mp hx with h1 | h1
    · subst h1
      exact f3 _ (s4 e he)
    · exact f4 x h1 e he

/-- C10: when no line of the document header-parses, `parse_tile_init`
short-circuits before the post-scan merge: the category list of the result is
empty (the supplied additional categories are all discarded), while the error
log still holds every failing line's (line, error) pair. -/
theorem c10_no_header_short_circuit (text : String)
    (adds : List TileCategory) (root : String)
    (hnoh : ∀ l ∈ filteredLines text, rsStartsWith l "-[" = true →
      okOpt (parse_category_header l) = none) :
    ∃ errs, parse_tile_init text adds root =
        .ok { root := root, categories := [], errored_lines := errs } ∧
      ∀ l ∈ filteredLines text, ∀ e, lineFailure l e → (l, e) ∈ errs := by
  obtain ⟨h1, h2, h3, h4⟩ := foldl_no_header adds (filteredLines text)
    { errored_lines := [], current_category := none, categories := [] } hnoh rfl
  have h2b : (List.foldl (initStep adds)
      { errored_lines := [], current_category := none, categories := [] }
      (filteredLines text)).categories = [] := h2
  refine ⟨_, ?_, h4⟩
  unfold parse_tile_init
  dsimp only
  rw [h1, h2b]

/-- C10 witness: a three-line document whose only `-[` line fails the header
grammar, with a nonempty additional-category list that is discarded. -/
theorem c10_no_header_short_circuit_witness :
    ∃ errs, parse_tile_init docNoHeader
        [TileCategory.new_main "Z" (9, 9, 9) 5] "rt" =
        .ok { root := "rt", categories := [], errored_lines := errs } ∧
      ∀ l ∈ filteredLines docNoHeader, ∀ e, lineFailure l e → (l, e) ∈ errs :=
  c10_no_header_short_circuit docNoHeader _ "rt" (by decide)

/-- C7: the value parser is meant never to fail — the embedding indeed always
returns a value, and degrades unmatched text to `InvalidOrNull` of the
trimmed input — but the Rust original panics on the one-character input `"`:
both quote guards hold and the slice `&text[1..0]` aborts the process, which
`LingoData.parsePanics` records. -/
theorem c7_parse_never_fails_except_panic :
    (∀ s, ∃ v, LingoData.parse s = .ok v) ∧
    LingoData.parse "garbage!!" = .ok (.invalidOrNull "garbage!!") ∧
    LingoData.parsePanics "\"" = true :=
  ⟨lingo_parse_total, rfl, rfl⟩

/-- In-place replacement: the first structurally equal position is updated,
which is a `List.set` at an index holding the item. -/
theorem replaceFirst_spec (l : List TileInfo) (a : TileInfo) (h : a ∈ l) :
    ∃ i : Fin l.length, l.get i = a ∧ replaceFirst l a = l.set i a := by
  induction l with
  | nil => exact absurd h (List.not_mem_nil a)
  | cons x xs ih =>
    by_cases hx : x = a
    · exact ⟨⟨0, Nat.succ_pos _⟩, hx, by simp [replaceFirst, hx]⟩
    · have hmem : a ∈ xs := by
        rcases List.mem_cons.mp h with h1 | h1
        · exact absurd h1.symm hx
        · exact h1
      obtain ⟨i, hget, hrep⟩ := ih hmem
      refine ⟨i.succ, ?_, ?_⟩
      · simpa using hget
      · simp [replaceFirst, hx, hrep, Fin.val_succ, List.set]

/-- C4: a document of one successfully parsing header followed by two
successfully parsing, distinct tile-record lines yields exactly one category
holding exactly those two tiles in encounter order; and a tile-record
structurally equal to an existing tile replaces it in place — at its
position, preserving the list length — instead of being appended. -/
theorem c4_one_header_two_tiles :
    (∀ (text root h l1 l2 : String) (H : TileCategory) (t1 t2 : TileInfo),
      filteredLines text = [h, l1, l2] →
      rsStartsWith h "-[" = true →
      parse_category_header h = .ok H →
      rsStartsWith l1 "-[" = false →
      parse_tile_info l1 true = .ok t1 →
      rsStartsWith l2 "-[" = false →
      parse_tile_info l2 true = .ok t2 →
      t1 ≠ t2 →
      parse_tile_init text [] root =
        .ok { root := root,
              categories := [{ H with tiles := [t1, t2], index := 0 }],
              errored_lines := [] }) ∧
    (∀ (cat : TileCategory) (item : TileInfo), item ∈ cat.tiles →
      ∃ i : Fin cat.tiles.length, cat.tiles.get i = item ∧
        (addOrReplaceTile cat item).tiles = cat.tiles.set i item ∧
        (addOrReplaceTile cat item).tiles.length = cat.tiles.length) := by
  constructor
  · intro text root h l1 l2 H t1 t2 hfl hhb hH h1b ht1 h2b ht2 hne
    obtain ⟨htiles, _, _⟩ := parse_category_header_ok_shape h H hH
    have s1 : initStep [] (⟨[], none, []⟩ : AsmState) h =
        (⟨[], some H, []⟩ : AsmState) := by
      simp [initStep, hhb, hH, mergeAdditional]
    have s2 : initStep [] (⟨[], some H, []⟩ : AsmState) l1 =
        (⟨[], some { H with tiles := [t1] }, []⟩ : AsmState) := by
      simp [initStep, h1b, ht1, addOrReplaceTile, htiles]
    have s3 : initStep [] (⟨[], some { H with tiles := [t1] }, []⟩ : AsmState) l2 =
        (⟨[], some { H with tiles := [t1, t2] }, []⟩ : AsmState) := by
      simp [initStep, h2b, ht2, addOrReplaceTile, Ne.symm hne]
    unfold parse_tile_init
    rw [hfl, List.foldl_cons, s1, List.foldl_cons, s2, List.foldl_cons, s3,
      List.foldl_nil]
    dsimp only
    by_cases hidx : H.index = 0
    · simp [assignIdxAux, TileInit.sort_and_normalize_categories, isortCats,
        insertCat, withIdx, hidx]
    · simp [assignIdxAux, TileInit.sort_and_normalize_categories, isortCats,
        insertCat, withIdx, hidx]
  · intro cat item hmem
    obtain ⟨i, hget, hrep⟩ := replaceFirst_spec cat.tiles item hmem
    exact ⟨i, hget, by simp [addOrReplaceTile, hmem, hrep],
      by simp [addOrReplaceTile, hmem, hrep]⟩

/-- C4 witness: the concrete three-line document (header `Cat`, tiles `a`
and `b`), and the in-place replacement on a category already holding the
tile. -/
theorem c4_one_header_two_tiles_witness :
    (parse_tile_init docThreeLines [] "rt" =
      .ok { root := "rt",
            categories := [{ TileCategory.new_main "Cat" (1, 2, 3) 0 with
              tiles := [tileA, tileB], index := 0 }],
            errored_lines := [] }) ∧
    (∃ i : Fin ({ TileCategory.new_main "X" (0, 0, 0) 0 with
        tiles := [tileA] } : TileCategory).tiles.length,
      ({ TileCategory.new_main "X" (0, 0, 0) 0 with
        tiles := [tileA] } : TileCategory).tiles.get i = tileA ∧
      (addOrReplaceTile { TileCategory.new_main "X" (0, 0, 0) 0 with
        tiles := [tileA] } tileA).tiles =
        ({ TileCategory.new_main "X" (0, 0, 0) 0 with
          tiles := [tileA] } : TileCategory).tiles.set i tileA ∧
      (addOrReplaceTile { TileCategory.new_main "X" (0, 0, 0) 0 with
        tiles := [tileA] } tileA).tiles.length =
        ({ TileCategory.new_main "X" (0, 0, 0) 0 with
          tiles := [tileA] } : TileCategory).tiles.length) :=
  ⟨c4_one_header_two_tiles.1 docThreeLines "rt" headerLineCat tileLineA tileLineB
      (TileCategory.new_main "Cat" (1, 2, 3) 0) tileA tileB
      rfl rfl rfl rfl rfl rfl rfl (by decide),
    c4_one_header_two_tiles.2 _ tileA (List.mem_singleton_self tileA)⟩

/-- Positional reassignment gives each category its position as ordinal. -/
theorem withIdx_map_index (k : Nat) (l : List TileCategory) :
    (withIdx k l).map (fun c => c.index) = List.range' k l.length := by
  induction l generalizing k with
  | nil => rfl
  | cons c cs ih => simp [withIdx, List.range'_succ, ih]

/-- Positional reassignment preserves the length. -/
theorem withIdx_length (k : Nat) (l : List TileCategory) :
    (withIdx k l).length = l.length := by
  induction l generalizing k with
  | nil => rfl
  | cons c cs ih => simp [withIdx, ih]

/-- If an assembler state with no current category has no finalized
categories, the same holds after one step. -/
theorem initStep_none_nil (adds : List TileCategory) (st : AsmState)
    (line : String) (h : st.current_category = none → st.categories = []) :
    (initStep adds st line).current_category = none →
    (initStep adds st line).categories = [] := by
  unfold initStep
  split
  · split
    · intro hc
      exact Option.noConfusion hc
    · intro hc
      exact h hc
  · split
    · split
      · intro hc
        exact Option.noConfusion hc
      · intro hc
        exact h hc
    · intro hc
      exact h hc

/-- The no-category/no-finalized-categories invariant along the fold. -/
theorem foldl_none_nil (adds : List TileCategory) (lines : List String)
    (st : AsmState) (h : st.current_category = none → st.categories = []) :
    (lines.foldl (initStep adds) st).current_category = none →
    (lines.foldl (initStep adds) st).categories = [] := by
  induction lines generalizing st with
  | nil => exact h
  | cons l rest ih => exact ih _ (initStep_none_nil adds st l h)

/-- C6: in every successfully returned `TileInit` the ordinals are exactly
the positions `0, 1, …` — in particular every category whose ordinal was the
unset sentinel 0 now carries its positional index, and no two categories
share an ordinal. -/
theorem c6_normalized_ordinals (text : String) (adds : List TileCategory)
    (root : String) (ti : TileInit)
    (h : parse_tile_init text adds root = .ok ti) :
    ti.categories.map (fun c => c.index) = List.range ti.categories.length := by
  unfold parse_tile_init at h
  dsimp only at h
  split at h
  next hcc =>
    have hcats := foldl_none_nil adds (filteredLines text)
      { errored_lines := [], current_category := none, categories := [] }
      (fun _ => rfl) hcc
    have hti := Except.ok.inj h
    subst hti
    simp [hcats]
  next cat hcc =>
    have hti := Except.ok.inj h
    subst hti
    dsimp only [TileInit.sort_and_normalize_categories]
    rw [withIdx_map_index, withIdx_length, List.range_eq_range']

/-- C6 witness: the two-header document (explicit ordinal 7, then the unset
sentinel) normalizes to ordinals `[0, 1]`. -/
theorem c6_normalized_ordinals_witness :
    ∃ ti, parse_tile_init docTwoHeaders [] "rt" = .ok ti ∧
      ti.categories.map (fun c => c.index) = List.range ti.categories.length :=
  ⟨_, rfl, c6_normalized_ordinals docTwoHeaders [] "rt" _ rfl⟩

/-- The header branch of the subfolder scan overwrites name and color in any
state: `category_found` is false forever, so no first-header guard exists. -/
theorem subStep_header_overwrites (st : TileCategory × List (String × DeserError))
    (line : String) (newcat : TileCategory)
    (hidx : findCategoryIndex line.data = none)
    (hpre : rsStartsWith line "-[" = true)
    (hok : parse_category_header line = .ok newcat) :
    (subStep st line).1.name = newcat.name ∧
    (subStep st line).1.color = newcat.color := by
  unfold subStep
  rw [hidx]
  simp [category_found, hpre, hok]

/-- Lines outside the successful-header branch never change name or color. -/
theorem subStep_no_header_preserves (st : TileCategory × List (String × DeserError))
    (line : String) (h : headerOv line = none) :
    (subStep st line).1.name = st.1.name ∧
    (subStep st line).1.color = st.1.color := by
  unfold subStep
  cases hidx : findCategoryIndex line.data with
  | some ds => exact ⟨rfl, rfl⟩
  | none =>
    cases hpre : rsStartsWith line "-[" with
    | false =>
      simp only [category_found, Bool.not_false, Bool.true_and, hpre,
        Bool.false_eq_true, if_false]
      cases parse_tile_info line true <;> exact ⟨rfl, rfl⟩
    | true =>
      cases hok : parse_category_header line with
      | ok c =>
        exfalso
        unfold headerOv at h
        rw [if_pos ⟨hidx, hpre⟩, hok] at h
        exact Option.noConfusion h
      | error e =>
        simp [category_found, hpre, hok]

/-- Along the subfolder scan, the category carries the name and color of the
last line of the successful-header branch. -/
theorem subfold_last_header (lines : List String)
    (st : TileCategory × List (String × DeserError)) (H : TileCategory) :
    (lines.filterMap headerOv).getLast? = some H →
    (lines.foldl subStep st).1.name = H.name ∧
    (lines.foldl subStep st).1.color = H.color := by
  induction lines using List.reverseRecOn generalizing st with
  | nil => intro h; simp at h
  | append_singleton ls a ih =>
    intro h
    rw [List.filterMap_append] at h
    rw [List.foldl_append]
    cases hha : headerOv a with
    | some H2 =>
      have hfa : List.filterMap headerOv [a] = [H2] := by
        simp [List.filterMap, hha]
      rw [hfa, List.getLast?_concat] at h
      have hH : H2 = H := Option.some.inj h
      subst hH
      unfold headerOv at hha
      split at hha
      next hcond =>
        cases hok : parse_category_header a with
        | ok c =>
          rw [hok] at hha
          have hc : c = H2 := by simpa [okOpt] using hha
          subst hc
          exact subStep_header_overwrites _ a _ hcond.1 hcond.2 hok
        | error e =>
          rw [hok] at hha
          exact absurd hha (by simp [okOpt])
      next hcond => exact absurd hha (by simp)
    | none =>
      have hfa : List.filterMap headerOv [a] = [] := by
        simp [List.filterMap, hha]
      rw [hfa, List.append_nil] at h
      obtain ⟨n1, c1⟩ := ih st h
      obtain ⟨p1, p2⟩ := subStep_no_header_preserves (ls.foldl subStep st) a hha
      exact ⟨p1.trans n1, p2.trans c1⟩

/-- C9: in the subfolder collector, every line reaching the header branch
that parses successfully overwrites the category's name and color regardless
of the current state (no first-header-only guard, `category_found` being
immutably false), so after the scan the category carries the name and color
of the last such header line. -/
theorem c9_subfolder_headers_overwrite :
    (∀ (st : TileCategory × List (String × DeserError)) (line : String)
        (newcat : TileCategory),
      findCategoryIndex line.data = none →
      rsStartsWith line "-[" = true →
      parse_category_header line = .ok newcat →
      (subStep st line).1.name = newcat.name ∧
      (subStep st line).1.color = newcat.color) ∧
    (∀ (cat0 : TileCategory) (contents : String) (H : TileCategory),
      ((filteredLines contents).filterMap headerOv).getLast? = some H →
      (subfolderScan cat0 contents).1.name = H.name ∧
      (subfolderScan cat0 contents).1.color = H.color) :=
  ⟨fun st line newcat h1 h2 h3 => subStep_header_overwrites st line newcat h1 h2 h3,
    fun cat0 contents H h => subfold_last_header (filteredLines contents) _ H h⟩

/-- C9 witness: a subfolder document with two header lines ends with the
second header's name and color. -/
theorem c9_subfolder_headers_overwrite_witness :
    (subfolderScan (TileCategory.new_main "dir" (255, 0, 0) 0)
        subTwoHeaders).1.name =
      (TileCategory.new_main "B" (4, 5, 6) 0).name ∧
    (subfolderScan (TileCategory.new_main "dir" (255, 0, 0) 0)
        subTwoHeaders).1.color =
      (TileCategory.new_main "B" (4, 5, 6) 0).color :=
  c9_subfolder_headers_overwrite.2 (TileCategory.new_main "dir" (255, 0, 0) 0)
    subTwoHeaders (TileCategory.new_main "B" (4, 5, 6) 0) (by decide)

/-- The first three positions of a list are unchanged by `take 3`: the
`getD`-with-default reads below index 3 see only the first three elements. -/
theorem getD_take_three (l : List Nat) :
    (l.take 3).getD 0 0 = l.getD 0 0 ∧
    (l.take 3).getD 1 0 = l.getD 1 0 ∧
    (l.take 3).getD 2 0 = l.getD 2 0 := by
  rcases l with _ | ⟨a, _ | ⟨b, _ | ⟨c, rest⟩⟩⟩ <;>
    simp [List.getD, List.take_succ_cons]

/-- C8: the category-header example of the spec — name `Pipes`, color
`[10,20,30]`, index 2 — and the general clauses: for every line whose
category pattern matches, the color is read off the first three successfully
parsed channels (channels beyond the first three are ignored: taking just the
first three channels gives the same color) with absent channels defaulting to
0; and for every successfully parsed line the ordinal defaults to 0 both when
the trailing `--CATEGORY_INDEX` marker is absent and when its digit run fails
`usize` parsing (`parse().unwrap_or(0)`). -/
theorem c8_category_header_cases :
    (parse_category_header "-[\"Pipes\", color(10,20,30)--CATEGORY_INDEX:2" =
      .ok (TileCategory.new_main "Pipes" (10, 20, 30) 2)) ∧
    (∀ (text : String) (nm colstr : List Char) (cat : TileCategory),
      findCategoryCaps text.data = some (nm, colstr) →
      parse_category_header text = .ok cat →
      cat.name = String.mk nm ∧
      cat.color =
        (((splitCommasChars colstr).filterMap parseU8).getD 0 0,
         ((splitCommasChars colstr).filterMap parseU8).getD 1 0,
         ((splitCommasChars colstr).filterMap parseU8).getD 2 0) ∧
      cat.color =
        ((((splitCommasChars colstr).filterMap parseU8).take 3).getD 0 0,
         (((splitCommasChars colstr).filterMap parseU8).take 3).getD 1 0,
         (((splitCommasChars colstr).filterMap parseU8).take 3).getD 2 0)) ∧
    (∀ (text : String) (cat : TileCategory),
      parse_category_header text = .ok cat →
      findCategoryIndex text.data = none →
      cat.index = 0) ∧
    (∀ (text : String) (cat : TileCategory) (ds : List Char),
      parse_category_header text = .ok cat →
      findCategoryIndex text.data = some ds →
      parseUsize ds = none →
      cat.index = 0) := by
  refine ⟨rfl, ?_, ?_, ?_⟩
  · intro text nm colstr cat hcaps hok
    unfold parse_category_header at hok
    rw [hcaps] at hok
    have hc := Except.ok.inj hok
    subst hc
    obtain ⟨g0, g1, g2⟩ :=
      getD_take_three ((splitCommasChars colstr).filterMap parseU8)
    refine ⟨by simp [TileCategory.new_main], by simp [TileCategory.new_main], ?_⟩
    rw [g0, g1, g2]
    simp [TileCategory.new_main]
  · intro text cat hok hidx
    unfold parse_category_header at hok
    cases hcaps : findCategoryCaps text.data with
    | some p =>
      obtain ⟨nm, colstr⟩ := p
      rw [hcaps] at hok
      have hc := Except.ok.inj hok
      subst hc
      show (match findCategoryIndex text.data with
        | some ds => (parseUsize ds).getD 0
        | none => 0) = 0
      rw [hidx]
    | none =>
      rw [hcaps] at hok
      exact Except.noConfusion hok
  · intro text cat ds hok hidx hpu
    unfold parse_category_header at hok
    cases hcaps : findCategoryCaps text.data with
    | some p =>
      obtain ⟨nm, colstr⟩ := p
      rw [hcaps] at hok
      have hc := Except.ok.inj hok
      subst hc
      show (match findCategoryIndex text.data with
        | some ds => (parseUsize ds).getD 0
        | none => 0) = 0
      rw [hidx]
      dsimp only
      rw [hpu]
      rfl
    | none =>
      rw [hcaps] at hok
      exact Except.noConfusion hok

/-- C8 witness: the general clauses instantiated — a four-channel color line
(extra channel ignored), a one-channel color line with no marker (missing
channels and index default to 0), and a line whose marker digits overflow
`usize` (index defaults to 0). -/
theorem c8_category_header_cases_witness :
    ((TileCategory.new_main "X" (1, 2, 3) 0).name = String.mk "X".data ∧
      (TileCategory.new_main "X" (1, 2, 3) 0).color =
        (((splitCommasChars "1,2,3,4".data).filterMap parseU8).getD 0 0,
         ((splitCommasChars "1,2,3,4".data).filterMap parseU8).getD 1 0,
         ((splitCommasChars "1,2,3,4".data).filterMap parseU8).getD 2 0) ∧
      (TileCategory.new_main "X" (1, 2, 3) 0).color =
        ((((splitCommasChars "1,2,3,4".data).filterMap parseU8).take 3).getD 0 0,
         (((splitCommasChars "1,2,3,4".data).filterMap parseU8).take 3).getD 1 0,
         (((splitCommasChars "1,2,3,4".data).filterMap parseU8).take 3).getD 2 0)) ∧
    (TileCategory.new_main "X" (7, 0, 0) 0).index = 0 ∧
    (TileCategory.new_main "X" (1, 2, 3) 0).index = 0 :=
  ⟨c8_category_header_cases.2.1 "-[\"X\", color(1,2,3,4)]" "X".data "1,2,3,4".data
      (TileCategory.new_main "X" (1, 2, 3) 0) rfl rfl,
    c8_category_header_cases.2.2.1 "-[\"X\", color(7)]"
      (TileCategory.new_main "X" (7, 0, 0) 0) rfl rfl,
    c8_category_header_cases.2.2.2
      "-[\"X\", color(1,2,3)--CATEGORY_INDEX:18446744073709551616"
      (TileCategory.new_main "X" (1, 2, 3) 0)
      "18446744073709551616".data rfl rfl rfl⟩

end Tileman
